import Mathlib

/-!
Verification of the history-reconstruction and stream-continuation engine of
`copilotkit-langgraph-history` (the `HistoryHydratingAgentRunner`).

The data model is embedded from `src/runner/types.ts`; the hydration
orchestrator (`connect` / `hydrate` / `joinAndProcessStream`) is embedded from
the runner source.  Opaque JSON payloads (`unknown` / `Record<string, unknown>`
fields) are modelled as `String`; fields the engine never reads (`config`,
`metadata`, `checkpoint`, timestamps) are elided.  Asynchronous collaborator
calls are modelled as pre-supplied results in a `HydrationEnv` record, with
`Except Unit` marking the calls that can fail with a transport error.
-/

namespace CopilotHistory

/-- A single tool call carried by a LangGraph message
(`tool_calls` entries in `LangGraphMessage`, types.ts). `args` is an opaque
record, modelled as a string. -/
structure ToolCall where
  id : String
  name : String
  args : String
deriving DecidableEq, Repr

/-- Message content: `string | Array<{ type: string; text?: string }>`. -/
structure ContentPart where
  type : String
  text : Option String
deriving DecidableEq, Repr

/-- Content union of a LangGraph message. -/
inductive MsgContent where
  | str (s : String)
  | parts (ps : List ContentPart)
deriving DecidableEq, Repr

/-- The `type` tag of a LangGraph message: "human" | "ai" | "tool" | "system". -/
inductive MsgType where
  | human
  | ai
  | tool
  | system
deriving DecidableEq, Repr

/-- Shape `LangGraphMessage` from types.ts. -/
structure LangGraphMessage where
  id : String
  type : MsgType
  content : MsgContent
  tool_calls : Option (List ToolCall)
  tool_call_id : Option String
deriving DecidableEq, Repr

/-- The `values` record of a checkpoint: an optional `messages` sequence plus
further free-form keys (collapsed to the opaque `extra` string, which makes
structural equality of two `values` records decidable). -/
structure StateValues where
  messages : Option (List LangGraphMessage)
  extra : String
deriving DecidableEq, Repr

/-- One entry of a task's `interrupts` list; `value?: unknown` is modelled as
an optional opaque string. -/
structure InterruptInfo where
  value : Option String
deriving DecidableEq, Repr

/-- One entry of a checkpoint's `tasks` list. -/
structure TaskInfo where
  id : String
  name : String
  interrupts : Option (List InterruptInfo)
deriving DecidableEq, Repr

/-- Shape `ThreadState` (a checkpoint) from types.ts.  The TypeScript type declares
`values` and `next` as required, but the runner guards both with truthiness
checks (`state.values?.messages`, `latestState.next && ...`), so they are
modelled as optional. -/
structure ThreadState where
  values : Option StateValues
  next : Option (List String)
  tasks : Option (List TaskInfo)
deriving DecidableEq, Repr

/-- Shape `HistoryRun.status` from types.ts. -/
inductive RunStatus where
  | running
  | pending
  | success
  | error
  | timeout
  | interrupted
deriving DecidableEq, Repr

/-- Shape `HistoryRun` from types.ts (fields the runner never reads are elided). -/
structure HistoryRun where
  run_id : String
  status : RunStatus
  thread_id : Option String
deriving DecidableEq, Repr

/-! ## MessageLog Builder (connect/hydrate, message extraction loop) -/

/-- The messages contributed by one checkpoint:
`state.values?.messages` guarded by truthiness, then `state.values.messages || []`. -/
def checkpointMessages (ts : ThreadState) : List LangGraphMessage :=
  match ts.values with
  | some v => v.messages.getD []
  | none => []

/-- One step of the deduplication loop: the accumulator pairs the message log
built so far with the `seenMessageIds` set (modelled as a list of ids).
`if (!seenMessageIds.has(msg.id)) { seenMessageIds.add(msg.id); allMessages.push(msg); }` -/
def dedupStep (acc : List LangGraphMessage × List String) (m : LangGraphMessage) :
    List LangGraphMessage × List String :=
  if m.id ∈ acc.2 then acc else (acc.1 ++ [m], m.id :: acc.2)

/-- The full message-extraction loop of `hydrate`: reverse the newest-first
checkpoint list, then walk each checkpoint's messages through `dedupStep`. -/
def collectMessages (history : List ThreadState) : List LangGraphMessage :=
  (history.reverse.foldl
    (fun acc cp => (checkpointMessages cp).foldl dedupStep acc) ([], [])).1

/-- The raw chronological message stream: all messages of all checkpoints,
oldest checkpoint first, without deduplication (reference point for the
first-occurrence ordering property). -/
def chronologicalMessages (history : List ThreadState) : List LangGraphMessage :=
  history.reverse.flatMap checkpointMessages

/-- Reference recursion: keep the first occurrence of each id, skipping ids
already in `seen`. -/
def dedupFirst : List LangGraphMessage → List String → List LangGraphMessage
  | [], _ => []
  | m :: ms, seen =>
    if m.id ∈ seen then dedupFirst ms seen
    else m :: dedupFirst ms (m.id :: seen)

/-- The `seen` ids after running `dedupFirst`. -/
def seenAfter : List LangGraphMessage → List String → List String
  | [], seen => seen
  | m :: ms, seen =>
    if m.id ∈ seen then seenAfter ms seen else seenAfter ms (m.id :: seen)

theorem foldl_dedupStep_eq (l : List LangGraphMessage) :
    ∀ (acc : List LangGraphMessage) (seen : List String),
      l.foldl dedupStep (acc, seen) = (acc ++ dedupFirst l seen, seenAfter l seen) := by
  induction l with
  | nil => intro acc seen; simp [dedupFirst, seenAfter]
  | cons m ms ih =>
    intro acc seen
    by_cases h : m.id ∈ seen
    · simp [List.foldl_cons, dedupStep, dedupFirst, seenAfter, h, ih]
    · simp [List.foldl_cons, dedupStep, dedupFirst, seenAfter, h, ih]

theorem foldl_dedupStep_bind (cps : List ThreadState) :
    ∀ (acc : List LangGraphMessage × List String),
      cps.foldl (fun acc cp => (checkpointMessages cp).foldl dedupStep acc) acc
        = (cps.flatMap checkpointMessages).foldl dedupStep acc := by
  induction cps with
  | nil => intro acc; simp
  | cons c cs ih =>
    intro acc
    simp [List.foldl_cons, List.flatMap_cons, List.foldl_append, ih]

theorem collectMessages_eq_dedupFirst (history : List ThreadState) :
    collectMessages history = dedupFirst (chronologicalMessages history) [] := by
  unfold collectMessages chronologicalMessages
  rw [foldl_dedupStep_bind, foldl_dedupStep_eq]
  simp

theorem dedupFirst_id_nodup_aux (l : List LangGraphMessage) :
    ∀ seen : List String,
      ((dedupFirst l seen).map (fun m => m.id)).Nodup ∧
      ∀ x ∈ (dedupFirst l seen).map (fun m => m.id), x ∉ seen := by
  induction l with
  | nil => intro seen; simp [dedupFirst]
  | cons m ms ih =>
    intro seen
    by_cases h : m.id ∈ seen
    · simpa [dedupFirst, h] using ih seen
    · have ihm := ih (m.id :: seen)
      refine ⟨?_, ?_⟩
      · simp only [dedupFirst, h, if_false, List.map_cons, List.nodup_cons]
        refine ⟨fun hmem => ?_, ihm.1⟩
        exact (ihm.2 _ hmem) (by simp)
      · intro x hx
        simp only [dedupFirst, h, if_false, List.map_cons, List.mem_cons] at hx
        rcases hx with rfl | hx
        · exact h
        · intro hxs
          exact (ihm.2 x hx) (by simp [hxs])

/-- C1 helper: the ids of the deduplicated log have no duplicates. -/
theorem collectMessages_id_nodup (history : List ThreadState) :
    ((collectMessages history).map (fun m => m.id)).Nodup := by
  rw [collectMessages_eq_dedupFirst]
  exact (dedupFirst_id_nodup_aux (chronologicalMessages history) []).1

/-! ## History limit (constructor clamp, fetch limit, post-dedup slice) -/

/-- Modelled from the spec: `src/runner/constants.ts` is not among the
sources; §6 fixes the default history limit at 100 (also documented on
`HistoryHydratingRunnerConfig.historyLimit` in types.ts). -/
def DEFAULT_HISTORY_LIMIT : Int := 100

/-- Modelled from the spec: `src/runner/constants.ts` is not among the
sources; §6 names 1000 as the hard ceiling imposed by the backend (also
documented on `HistoryHydratingRunnerConfig.historyLimit` in types.ts). -/
def MAX_HISTORY_LIMIT : Int := 1000

/-- The constructor's limit computation:
`this.historyLimit = Math.min(config.historyLimit ?? DEFAULT_HISTORY_LIMIT, MAX_HISTORY_LIMIT)`. -/
def constructedHistoryLimit (cfg : Option Int) : Int :=
  min (cfg.getD DEFAULT_HISTORY_LIMIT) MAX_HISTORY_LIMIT

/-- The `limit` option passed to `client.threads.getHistory`:
`this.historyLimit > 0 ? this.historyLimit : DEFAULT_HISTORY_LIMIT`. -/
def fetchLimit (historyLimit : Int) : Int :=
  if historyLimit > 0 then historyLimit else DEFAULT_HISTORY_LIMIT

/-- JavaScript `list.slice(-k)` for `k > 0`: the last `min k list.length`
entries. -/
def sliceLast (k : Nat) (l : List α) : List α := l.drop (l.length - k)

/-- The post-deduplication limit:
`this.historyLimit > 0 ? allMessages.slice(-this.historyLimit) : allMessages`. -/
def applyHistoryLimit (historyLimit : Int) (msgs : List LangGraphMessage) :
    List LangGraphMessage :=
  if historyLimit > 0 then sliceLast historyLimit.toNat msgs else msgs

/-! ## Message Transformer -/

/-- Canonical protocol role. -/
inductive Role where
  | user
  | assistant
  | tool
  | system
deriving DecidableEq, Repr

/-- The canonical (CopilotKit) message shape produced by the transformer. -/
structure CopilotMessage where
  id : String
  role : Role
  content : MsgContent
  toolCalls : Option (List ToolCall)
  toolCallId : Option String
deriving DecidableEq, Repr

/-- Modelled from the spec: `src/utils/message-transformer.ts` is not among
the sources.  §4.2: map each message's backend `type`/`content` shape to the
canonical `role`/`content` shape 1:1. -/
def transformRole : MsgType → Role
  | .human => .user
  | .ai => .assistant
  | .tool => .tool
  | .system => .system

/-- Modelled from the spec: `src/utils/message-transformer.ts` is not among
the sources.  §4.2: 1:1, order- and identity-preserving (`id` unchanged),
tool-call structures translated verbatim. -/
def transformMessage (m : LangGraphMessage) : CopilotMessage :=
  { id := m.id
    role := transformRole m.type
    content := m.content
    toolCalls := m.tool_calls
    toolCallId := m.tool_call_id }

/-- Modelled from the spec: `src/utils/message-transformer.ts` is not among
the sources.  §4.2: must not drop or reorder messages. -/
def transformMessages (ms : List LangGraphMessage) : List CopilotMessage :=
  ms.map transformMessage

/-! ## Canonical protocol events -/

/-- The canonical event union emitted to the subscriber.  Timestamps are
elided (wall-clock). -/
inductive BaseEvent where
  | runStarted (threadId runId : String)
  | messagesSnapshot (messages : List CopilotMessage) (threadId runId : String)
  | stateSnapshot (snapshot : StateValues) (threadId runId : String)
  | customInterrupt (value : Option String) (threadId runId : String)
  | textMessageStart (msgId : String) (threadId runId : String)
  | textMessageContent (msgId delta : String) (threadId runId : String)
  | textMessageEnd (msgId : String) (threadId runId : String)
  | toolCallStart (toolCallId : String) (threadId runId : String)
  | toolCallArgs (toolCallId delta : String) (threadId runId : String)
  | runFinished (threadId runId : String)
deriving DecidableEq, Repr

/-! ## Stream Chunk Translator

`src/utils/stream-processor.ts` (`processStreamChunk`) is not among the
sources; the translator below is modelled from the spec (§4.4, §9): a tagged
union over the recognized chunk shapes, with an explicit ignore-unknown arm,
driven over an explicit state record. -/

/-- Modelled from the spec: translator cross-chunk state (§4.4) —
`startedMessages`, `startedToolCalls`, `manuallyEmittedState`, and the
current (mutable) `runId`. -/
structure TranslatorState where
  startedMessages : List String
  startedToolCalls : List String
  manuallyEmittedState : Option StateValues
  runId : String
deriving DecidableEq, Repr

/-- Modelled from the spec: the recognized backend stream chunk shapes
(§3 `StreamChunk`, §4.4 dispatch), as the tagged union §9 prescribes. -/
inductive StreamChunk where
  | messageContent (msgId delta : String)
  | messageEnd (msgId : String)
  | toolCallDelta (toolCallId delta : String)
  | stateValues (payload : StateValues)
  | predictedState (payload : StateValues)
  | newRun (runId : String)
  | unknown
deriving DecidableEq, Repr

/-- Modelled from the spec: `processStreamChunk` of
`src/utils/stream-processor.ts` (§4.4).  A content/end chunk whose id is not
yet started synthesizes the missing start event first and records the id; a
custom state chunk equal to `manuallyEmittedState` is suppressed; a manually
predicted state emission records itself in `manuallyEmittedState`; a chunk
carrying a new run id supersedes the current one; unknown chunks are
ignored. -/
def processStreamChunk (threadId : String) (st : TranslatorState)
    (c : StreamChunk) : TranslatorState × List BaseEvent :=
  match c with
  | .messageContent m d =>
    if m ∈ st.startedMessages then
      (st, [.textMessageContent m d threadId st.runId])
    else
      ({ st with startedMessages := m :: st.startedMessages },
       [.textMessageStart m threadId st.runId,
        .textMessageContent m d threadId st.runId])
  | .messageEnd m =>
    if m ∈ st.startedMessages then
      (st, [.textMessageEnd m threadId st.runId])
    else
      ({ st with startedMessages := m :: st.startedMessages },
       [.textMessageStart m threadId st.runId,
        .textMessageEnd m threadId st.runId])
  | .toolCallDelta t d =>
    if t ∈ st.startedToolCalls then
      (st, [.toolCallArgs t d threadId st.runId])
    else
      ({ st with startedToolCalls := t :: st.startedToolCalls },
       [.toolCallStart t threadId st.runId,
        .toolCallArgs t d threadId st.runId])
  | .stateValues p =>
    if st.manuallyEmittedState = some p then (st, [])
    else (st, [.stateSnapshot p threadId st.runId])
  | .predictedState p =>
    ({ st with manuallyEmittedState := some p },
     [.stateSnapshot p threadId st.runId])
  | .newRun r => ({ st with runId := r }, [])
  | .unknown => (st, [])

/-- The per-chunk loop of `joinAndProcessStream`: thread the translator state
through every chunk and concatenate the emitted events. -/
def runTranslator (threadId : String) (st : TranslatorState) :
    List StreamChunk → TranslatorState × List BaseEvent
  | [] => (st, [])
  | c :: cs =>
    let r1 := processStreamChunk threadId st c
    let r2 := runTranslator threadId r1.1 cs
    (r2.1, r1.2 ++ r2.2)

/-! ## Checkpoint Inspector -/

/-- The search `latestState.tasks?.find(task => task.interrupts && task.interrupts.length > 0)`:
the first task carrying a non-empty interrupt list. -/
def findInterruptedTask (ts : ThreadState) : Option TaskInfo :=
  (ts.tasks.getD []).find? (fun t => !(t.interrupts.getD []).isEmpty)

/-- The interrupt emission of the hydrate snapshot phase (and of the
post-stream check): if an interrupted task is found (re-checking, like the
source, that its interrupt list is non-empty), emit one custom `on_interrupt`
event carrying `interrupts[0]?.value`. -/
def hydrationInterruptEvent (ts : ThreadState) (threadId runId : String) :
    List BaseEvent :=
  match findInterruptedTask ts with
  | some t =>
    match t.interrupts.getD [] with
    | [] => []
    | i :: _ => [.customInterrupt i.value threadId runId]
  | none => []

/-- The predicate `run.status === "running" || run.status === "pending"`. -/
def isActiveRun (r : HistoryRun) : Bool :=
  r.status = RunStatus.running || r.status = RunStatus.pending

/-! ## Hydration Orchestrator -/

/-- The runner-instance field `activeRun` (`private activeRun = {}`), holding
the `manuallyEmittedState` carried between joins. -/
structure ActiveRunState where
  manuallyEmittedState : Option StateValues
deriving DecidableEq, Repr

/-- The results the backend collaborators would return during one `connect`
request.  `Except Unit` results model calls that can fail with a transport
error; `Option` on the history models a `null` response. The three
`...RunId` fields stand for the `"hydration_" + Math.random()...` /
`"hydration_error_" + ...` synthetic ids generated during the request.
`transformThrows` injects an unhandled exception at the `transformMessages`
call (its source is outside the embedded core), exercising the outer
try/catch of `hydrate`. -/
structure HydrationEnv where
  history : Except Unit (Option (List ThreadState))
  runsForId : Except Unit (List HistoryRun)
  runsForActive : Except Unit (List HistoryRun)
  transformThrows : Bool
  joinStreamErr : Bool
  chunks : List StreamChunk
  finalState : Except Unit ThreadState
  emptyFallbackRunId : String
  errorFallbackRunId : String
  generatedRunId : String
deriving Repr

/-- What one `connect` request produced: the events pushed to the subscriber
in order, whether `subscriber.complete()` was called, the run id passed to
`client.runs.joinStream` (if any call was made), and the runner's `activeRun`
field afterwards. -/
structure HydrationResult where
  events : List BaseEvent
  completed : Bool
  joinedRun : Option String
  activeRun : ActiveRunState
deriving Repr

/-- The fallback bracket emitted for an empty history or an unhandled
exception: RUN_STARTED, empty MESSAGES_SNAPSHOT, RUN_FINISHED. -/
def fallbackEvents (threadId runId : String) : List BaseEvent :=
  [.runStarted threadId runId,
   .messagesSnapshot [] threadId runId,
   .runFinished threadId runId]

/-- The `runId` chosen for the snapshot events:
`runs && runs.length > 0 ? runs[0].run_id : "hydration_" + ...`, with the
same generated fallback when `client.runs.list` throws. -/
def resolvedRunId (env : HydrationEnv) : String :=
  match env.runsForId with
  | .ok (r :: _) => r.run_id
  | .ok [] => env.generatedRunId
  | .error _ => env.generatedRunId

/-- The access `history[history.length - 1]` after the in-place `history.reverse()`:
the last element of the reversed list (the original head, i.e. the newest
checkpoint). -/
def latestCheckpoint (c : ThreadState) (cs : List ThreadState) : ThreadState :=
  ((c :: cs).reverse).getLast (by simp)

/-- The snapshot phase of `hydrate` (source lines 461–526): RUN_STARTED, then
MESSAGES_SNAPSHOT, then STATE_SNAPSHOT if the latest checkpoint has `values`,
then the interrupt event if the inspector finds one. -/
def snapshotPhaseEvents (latest : ThreadState) (transformed : List CopilotMessage)
    (threadId runId : String) : List BaseEvent :=
  [.runStarted threadId runId,
   .messagesSnapshot transformed threadId runId]
  ++ (match latest.values with
      | some v => [.stateSnapshot v threadId runId]
      | none => [])
  ++ hydrationInterruptEvent latest threadId runId

/-- Method `joinAndProcessStream`: open the live stream and drive the translator
over every chunk (starting from the carried-forward `manuallyEmittedState`),
then re-check for a terminal interrupt via `threads.getState` (failures
logged and ignored), then emit RUN_FINISHED with the latest known run id.
If the stream itself fails, the catch block emits RUN_FINISHED with the
original run id and rethrows (so the carried state is not updated).
Returns the emitted events and the `manuallyEmittedState` to store back into
`this.activeRun`. -/
def joinAndProcessStream (env : HydrationEnv) (threadId runId : String)
    (carried : Option StateValues) : List BaseEvent × Option StateValues :=
  if env.joinStreamErr then
    ([.runFinished threadId runId], carried)
  else
    let init : TranslatorState :=
      { startedMessages := []
        startedToolCalls := []
        manuallyEmittedState := carried
        runId := runId }
    let res := runTranslator threadId init env.chunks
    let interruptEvs :=
      match env.finalState with
      | .ok ts => hydrationInterruptEvent ts threadId res.1.runId
      | .error _ => []
    (res.2 ++ interruptEvs ++ [.runFinished threadId res.1.runId],
     res.1.manuallyEmittedState)

/-- The `hydrate` closure of `connect`, as a function of the collaborator
results.  `rs` is the runner's `activeRun` field on entry, `historyLimit` the
constructor-clamped limit. -/
def hydrate (env : HydrationEnv) (rs : ActiveRunState) (threadId : String)
    (historyLimit : Int) : HydrationResult :=
  match env.history with
  | .error _ =>
    { events := fallbackEvents threadId env.errorFallbackRunId
      completed := true, joinedRun := none, activeRun := rs }
  | .ok none =>
    { events := fallbackEvents threadId env.emptyFallbackRunId
      completed := true, joinedRun := none, activeRun := rs }
  | .ok (some []) =>
    { events := fallbackEvents threadId env.emptyFallbackRunId
      completed := true, joinedRun := none, activeRun := rs }
  | .ok (some (c :: cs)) =>
    if env.transformThrows then
      { events := fallbackEvents threadId env.errorFallbackRunId
        completed := true, joinedRun := none, activeRun := rs }
    else
      let allMessages := collectMessages (c :: cs)
      let limited := applyHistoryLimit historyLimit allMessages
      let transformed := transformMessages limited
      let runId := resolvedRunId env
      let latest := latestCheckpoint c cs
      let snapshot := snapshotPhaseEvents latest transformed threadId runId
      let isThreadBusy := !(latest.next.getD []).isEmpty
      let activeRun : Option HistoryRun :=
        if isThreadBusy then
          match env.runsForActive with
          | .ok runs => runs.find? isActiveRun
          | .error _ => none
        else none
      match activeRun with
      | some r =>
        let jr := joinAndProcessStream env threadId r.run_id rs.manuallyEmittedState
        { events := snapshot ++ jr.1
          completed := true
          joinedRun := some r.run_id
          activeRun := { manuallyEmittedState := jr.2 } }
      | none =>
        { events := snapshot ++ [.runFinished threadId runId]
          completed := true, joinedRun := none, activeRun := rs }

/-! ## Helper lemmas -/

theorem latestCheckpoint_eq (c : ThreadState) (cs : List ThreadState) :
    latestCheckpoint c cs = c := by
  have h1 : ((c :: cs).reverse).getLast? = some (latestCheckpoint c cs) :=
    List.getLast?_eq_getLast _ _
  have h2 : ((c :: cs).reverse).getLast? = some c := by
    rw [List.getLast?_reverse]
    rfl
  exact (Option.some.injEq _ _ ▸ (h1.symm.trans h2) : _)

/-- Recognizer for interrupt events. -/
def isInterruptEvent : BaseEvent → Bool
  | .customInterrupt _ _ _ => true
  | _ => false

/-- Number of interrupt events in an emitted sequence. -/
def countInterruptEvents (evs : List BaseEvent) : Nat :=
  evs.countP isInterruptEvent

/-- Recognizer for STATE_SNAPSHOT events. -/
def isStateSnapshotEvent : BaseEvent → Bool
  | .stateSnapshot _ _ _ => true
  | _ => false

/-- Number of STATE_SNAPSHOT events in an emitted sequence. -/
def countStateSnapshots (evs : List BaseEvent) : Nat :=
  evs.countP isStateSnapshotEvent

theorem find?_append_first {α} (p : α → Bool) (pre : List α) (t : α)
    (post : List α) (hpre : ∀ u ∈ pre, p u = false) (ht : p t = true) :
    (pre ++ t :: post).find? p = some t := by
  induction pre with
  | nil => simp [List.find?_cons, ht]
  | cons a as ih =>
    have ha : p a = false := hpre a (by simp)
    simp only [List.cons_append, List.find?_cons, ha]
    exact ih (fun u hu => hpre u (by simp [hu]))

/-! ## Concrete fixtures for witnesses -/

/-- A plain human message with the given id. -/
def mkMsg (i : String) : LangGraphMessage :=
  { id := i, type := .human, content := .str "hi"
    tool_calls := none, tool_call_id := none }

/-- A checkpoint holding exactly the given messages, idle, no tasks. -/
def mkCheckpoint (ms : List LangGraphMessage) : ThreadState :=
  { values := some { messages := some ms, extra := "" }
    next := none, tasks := none }

/-- An environment with all collaborator results benign and empty. -/
def baseEnv : HydrationEnv :=
  { history := .ok none
    runsForId := .ok []
    runsForActive := .ok []
    transformThrows := false
    joinStreamErr := false
    chunks := []
    finalState := .error ()
    emptyFallbackRunId := "hydration_abc"
    errorFallbackRunId := "hydration_error_abc"
    generatedRunId := "hydration_gen" }

/-! ## Claims -/

/-- C1: for every checkpoint sequence (newest-first), the reconstructed
message log equals the first-occurrence deduplication of the chronological
(reversed, once-walked) message stream, so it contains no duplicate ids and
its order is first-chronological-occurrence order. -/
theorem claim1_builder_dedup_first_occurrence (history : List ThreadState) :
    collectMessages history = dedupFirst (chronologicalMessages history) [] ∧
    ((collectMessages history).map (fun m => m.id)).Nodup :=
  ⟨collectMessages_eq_dedupFirst history, collectMessages_id_nodup history⟩

/-- C2: for every `historyLimit = k > 0` and every checkpoint sequence, the
emitted log has length at most `k` and is exactly the last-`k` suffix of the
full deduplicated log (the limit is applied after deduplication). -/
theorem claim2_limit_after_dedup (k : Int) (hk : 0 < k)
    (history : List ThreadState) :
    (applyHistoryLimit k (collectMessages history)).length ≤ k.toNat ∧
    applyHistoryLimit k (collectMessages history)
      = sliceLast k.toNat (collectMessages history) ∧
    List.IsSuffix (applyHistoryLimit k (collectMessages history))
      (collectMessages history) := by
  have hif : applyHistoryLimit k (collectMessages history)
      = sliceLast k.toNat (collectMessages history) := by
    simp [applyHistoryLimit, hk]
  refine ⟨?_, hif, ?_⟩
  · rw [hif]
    simp only [sliceLast, List.length_drop]
    omega
  · rw [hif]
    exact List.drop_suffix _ _

/-- C2 witness: `k = 2` on a three-message deduplicated log keeps exactly the
last two messages. -/
theorem claim2_limit_after_dedup_witness :
    (0 : Int) < 2 ∧
    ((applyHistoryLimit 2 (collectMessages
        [mkCheckpoint [mkMsg "a", mkMsg "b", mkMsg "c"],
         mkCheckpoint [mkMsg "a"]])).length ≤ (2 : Int).toNat ∧
     applyHistoryLimit 2 (collectMessages
        [mkCheckpoint [mkMsg "a", mkMsg "b", mkMsg "c"],
         mkCheckpoint [mkMsg "a"]])
       = sliceLast (2 : Int).toNat (collectMessages
        [mkCheckpoint [mkMsg "a", mkMsg "b", mkMsg "c"],
         mkCheckpoint [mkMsg "a"]]) ∧
     List.IsSuffix (applyHistoryLimit 2 (collectMessages
        [mkCheckpoint [mkMsg "a", mkMsg "b", mkMsg "c"],
         mkCheckpoint [mkMsg "a"]]))
       (collectMessages
        [mkCheckpoint [mkMsg "a", mkMsg "b", mkMsg "c"],
         mkCheckpoint [mkMsg "a"]])) :=
  ⟨by decide,
   claim2_limit_after_dedup 2 (by decide)
     [mkCheckpoint [mkMsg "a", mkMsg "b", mkMsg "c"], mkCheckpoint [mkMsg "a"]]⟩

/-- C3: when the history fetch returns an empty or absent checkpoint list,
`hydrate` emits exactly RUN_STARTED, an empty MESSAGES_SNAPSHOT and
RUN_FINISHED — all with the one synthetic fallback run id — then completes,
with no other events and no stream join. -/
theorem claim3_empty_history_fallback (env : HydrationEnv) (rs : ActiveRunState)
    (threadId : String) (historyLimit : Int)
    (h : env.history = .ok none ∨ env.history = .ok (some [])) :
    hydrate env rs threadId historyLimit =
      { events := [.runStarted threadId env.emptyFallbackRunId,
                   .messagesSnapshot [] threadId env.emptyFallbackRunId,
                   .runFinished threadId env.emptyFallbackRunId]
        completed := true, joinedRun := none, activeRun := rs } := by
  rcases h with h | h <;> simp [hydrate, h, fallbackEvents]

/-- C3 witness: a `null` history response produces exactly the fallback
bracket. -/
theorem claim3_empty_history_fallback_witness :
    hydrate baseEnv { manuallyEmittedState := none } "thread-1" 100 =
      { events := [.runStarted "thread-1" baseEnv.emptyFallbackRunId,
                   .messagesSnapshot [] "thread-1" baseEnv.emptyFallbackRunId,
                   .runFinished "thread-1" baseEnv.emptyFallbackRunId]
        completed := true, joinedRun := none
        activeRun := { manuallyEmittedState := none } } :=
  claim3_empty_history_fallback baseEnv { manuallyEmittedState := none }
    "thread-1" 100 (Or.inl rfl)

/-- C4: for every non-empty history (and no unhandled exception before the
snapshot), the emitted sequence starts with RUN_STARTED, then
MESSAGES_SNAPSHOT of the transformed log, then a STATE_SNAPSHOT exactly when
the latest checkpoint has `values`, then an interrupt event exactly when the
inspector finds one; the interrupt emission is non-empty iff
`findInterruptedTask` succeeds. -/
theorem claim4_snapshot_event_order (env : HydrationEnv) (rs : ActiveRunState)
    (threadId : String) (historyLimit : Int) (c : ThreadState)
    (cs : List ThreadState)
    (hh : env.history = .ok (some (c :: cs)))
    (ht : env.transformThrows = false) :
    (∃ rest, (hydrate env rs threadId historyLimit).events =
        .runStarted threadId (resolvedRunId env)
          :: .messagesSnapshot
               (transformMessages (applyHistoryLimit historyLimit
                 (collectMessages (c :: cs)))) threadId (resolvedRunId env)
          :: ((match (latestCheckpoint c cs).values with
               | some v => [.stateSnapshot v threadId (resolvedRunId env)]
               | none => ([] : List BaseEvent))
              ++ hydrationInterruptEvent (latestCheckpoint c cs) threadId
                   (resolvedRunId env)
              ++ rest)) ∧
    (hydrationInterruptEvent (latestCheckpoint c cs) threadId
        (resolvedRunId env) ≠ []
      ↔ (findInterruptedTask (latestCheckpoint c cs)).isSome) := by
  constructor
  · have key : ∃ rest,
        (hydrate env rs threadId historyLimit).events =
          snapshotPhaseEvents (latestCheckpoint c cs)
            (transformMessages (applyHistoryLimit historyLimit
              (collectMessages (c :: cs))))
            threadId (resolvedRunId env) ++ rest := by
      simp only [hydrate, hh, ht, Bool.false_eq_true, if_false]
      split
      · exact ⟨_, rfl⟩
      · exact ⟨_, rfl⟩
    obtain ⟨rest, hres⟩ := key
    refine ⟨rest, ?_⟩
    rw [hres]
    simp [snapshotPhaseEvents]
  · cases hft : findInterruptedTask (latestCheckpoint c cs) with
    | none => simp [hydrationInterruptEvent, hft]
    | some t =>
      unfold findInterruptedTask at hft
      have hp := List.find?_some hft
      simp only [hydrationInterruptEvent, findInterruptedTask, hft]
      cases hti : t.interrupts.getD [] with
      | nil => rw [hti] at hp; simp at hp
      | cons i l => simp

/-- A fixture checkpoint whose latest state has `values`, a pending step and
one interrupted task. -/
def cpInterrupted : ThreadState :=
  { values := some { messages := some [mkMsg "a"], extra := "s" }
    next := some ["step"]
    tasks := some [{ id := "t1", name := "n"
                     interrupts := some [{ value := some "why" }] }] }

/-- Environment whose history holds a newest-first pair of checkpoints. -/
def env4 : HydrationEnv :=
  { baseEnv with
      history := .ok (some [cpInterrupted, mkCheckpoint [mkMsg "a"]])
      runsForActive := .error () }

/-- C4 witness: concrete two-checkpoint history with state values and an
interrupt, evaluated through the theorem. -/
theorem claim4_snapshot_event_order_witness :
    (∃ rest, (hydrate env4 { manuallyEmittedState := none } "t" 100).events =
        .runStarted "t" (resolvedRunId env4)
          :: .messagesSnapshot
               (transformMessages (applyHistoryLimit 100
                 (collectMessages [cpInterrupted, mkCheckpoint [mkMsg "a"]])))
               "t" (resolvedRunId env4)
          :: ((match (latestCheckpoint cpInterrupted
                  [mkCheckpoint [mkMsg "a"]]).values with
               | some v => [.stateSnapshot v "t" (resolvedRunId env4)]
               | none => ([] : List BaseEvent))
              ++ hydrationInterruptEvent
                   (latestCheckpoint cpInterrupted [mkCheckpoint [mkMsg "a"]])
                   "t" (resolvedRunId env4)
              ++ rest)) ∧
    (hydrationInterruptEvent
        (latestCheckpoint cpInterrupted [mkCheckpoint [mkMsg "a"]])
        "t" (resolvedRunId env4) ≠ []
      ↔ (findInterruptedTask
          (latestCheckpoint cpInterrupted [mkCheckpoint [mkMsg "a"]])).isSome) :=
  claim4_snapshot_event_order env4 { manuallyEmittedState := none } "t" 100
    cpInterrupted [mkCheckpoint [mkMsg "a"]] rfl rfl

/-- C6: during the hydration snapshot phase, exactly one interrupt event is
emitted when some task of the latest checkpoint carries a non-empty
interrupt list — its payload being the first interrupt of the first such
task in task order — and none is emitted when no task does. -/
theorem claim6_interrupt_first_task (latest : ThreadState)
    (transformed : List CopilotMessage) (threadId runId : String) :
    (∀ pre t post i l,
        latest.tasks = some (pre ++ t :: post) →
        (∀ u ∈ pre, u.interrupts.getD [] = []) →
        t.interrupts = some (i :: l) →
        hydrationInterruptEvent latest threadId runId
            = [.customInterrupt i.value threadId runId] ∧
        countInterruptEvents
          (snapshotPhaseEvents latest transformed threadId runId) = 1) ∧
    ((∀ u ∈ latest.tasks.getD [], u.interrupts.getD [] = []) →
        hydrationInterruptEvent latest threadId runId = [] ∧
        countInterruptEvents
          (snapshotPhaseEvents latest transformed threadId runId) = 0) := by
  have hcount : ∀ ie : List BaseEvent,
      hydrationInterruptEvent latest threadId runId = ie →
      countInterruptEvents (snapshotPhaseEvents latest transformed threadId runId)
        = countInterruptEvents ie := by
    intro ie hie
    unfold snapshotPhaseEvents countInterruptEvents
    rw [hie]
    cases latest.values <;>
      simp [List.countP_append, List.countP_cons, isInterruptEvent]
  constructor
  · intro pre t post i l htasks hpre ht
    have hfind : findInterruptedTask latest = some t := by
      unfold findInterruptedTask
      rw [htasks]
      refine find?_append_first _ pre t post ?_ ?_
      · intro u hu
        simp [hpre u hu]
      · simp [ht]
    have hie : hydrationInterruptEvent latest threadId runId
        = [.customInterrupt i.value threadId runId] := by
      unfold hydrationInterruptEvent
      rw [hfind]
      simp [ht]
    exact ⟨hie, by rw [hcount _ hie]; simp [countInterruptEvents, isInterruptEvent]⟩
  · intro hall
    have hfind : findInterruptedTask latest = none := by
      unfold findInterruptedTask
      rw [List.find?_eq_none]
      intro u hu
      simp [hall u hu]
    have hie : hydrationInterruptEvent latest threadId runId = [] := by
      unfold hydrationInterruptEvent
      rw [hfind]
    exact ⟨hie, by rw [hcount _ hie]; rfl⟩

/-- C6 witness: a checkpoint whose first task has no interrupts and whose
second task carries two, evaluated through the theorem. -/
theorem claim6_interrupt_first_task_witness :
    hydrationInterruptEvent
        { values := none, next := none
          tasks := some
            [{ id := "t0", name := "n0", interrupts := some [] },
             { id := "t1", name := "n1"
               interrupts := some [{ value := some "first" },
                                   { value := some "second" }] }] }
        "t" "r"
      = [.customInterrupt (some "first") "t" "r"] ∧
    countInterruptEvents
      (snapshotPhaseEvents
        { values := none, next := none
          tasks := some
            [{ id := "t0", name := "n0", interrupts := some [] },
             { id := "t1", name := "n1"
               interrupts := some [{ value := some "first" },
                                   { value := some "second" }] }] }
        [] "t" "r") = 1 :=
  (claim6_interrupt_first_task
      { values := none, next := none
        tasks := some
          [{ id := "t0", name := "n0", interrupts := some [] },
           { id := "t1", name := "n1"
             interrupts := some [{ value := some "first" },
                                 { value := some "second" }] }] }
      [] "t" "r").1
    [{ id := "t0", name := "n0", interrupts := some [] }]
    { id := "t1", name := "n1"
      interrupts := some [{ value := some "first" }, { value := some "second" }] }
    [] { value := some "first" } [{ value := some "second" }]
    rfl (by decide) rfl

/-- C5: with a busy latest checkpoint and a running/pending run in the run
list, `hydrate` joins exactly that run's stream and RUN_FINISHED comes only
after every translated stream event and the final interrupt re-check; with an
idle checkpoint, a failed run listing, or no active run found, RUN_FINISHED
follows the snapshot immediately and no stream join is attempted. -/
theorem claim5_active_run_gating (env : HydrationEnv) (rs : ActiveRunState)
    (threadId : String) (historyLimit : Int) (c : ThreadState)
    (cs : List ThreadState)
    (hh : env.history = .ok (some (c :: cs)))
    (ht : env.transformThrows = false) :
    (∀ runs r, (latestCheckpoint c cs).next.getD [] ≠ [] →
        env.runsForActive = .ok runs →
        runs.find? isActiveRun = some r →
        env.joinStreamErr = false →
        (hydrate env rs threadId historyLimit).joinedRun = some r.run_id ∧
        (hydrate env rs threadId historyLimit).events =
          snapshotPhaseEvents (latestCheckpoint c cs)
            (transformMessages (applyHistoryLimit historyLimit
              (collectMessages (c :: cs)))) threadId (resolvedRunId env)
          ++ (runTranslator threadId
                ⟨[], [], rs.manuallyEmittedState, r.run_id⟩ env.chunks).2
          ++ (match env.finalState with
              | .ok ts =>
                hydrationInterruptEvent ts threadId
                  (runTranslator threadId
                    ⟨[], [], rs.manuallyEmittedState, r.run_id⟩
                    env.chunks).1.runId
              | .error _ => [])
          ++ [.runFinished threadId
                (runTranslator threadId
                  ⟨[], [], rs.manuallyEmittedState, r.run_id⟩
                  env.chunks).1.runId]) ∧
    (((latestCheckpoint c cs).next.getD [] = []
        ∨ env.runsForActive = .error ()
        ∨ (∀ runs, env.runsForActive = .ok runs →
             runs.find? isActiveRun = none)) →
        (hydrate env rs threadId historyLimit).joinedRun = none ∧
        (hydrate env rs threadId historyLimit).events =
          snapshotPhaseEvents (latestCheckpoint c cs)
            (transformMessages (applyHistoryLimit historyLimit
              (collectMessages (c :: cs)))) threadId (resolvedRunId env)
          ++ [.runFinished threadId (resolvedRunId env)]) := by
  constructor
  · intro runs r hbusy hruns hfind hjse
    have hb : ((latestCheckpoint c cs).next.getD []).isEmpty = false := by
      simpa [List.isEmpty_iff] using hbusy
    constructor
    · simp [hydrate, hh, ht, hb, hruns, hfind]
    · simp [hydrate, hh, ht, hb, hruns, hfind, joinAndProcessStream, hjse]
  · intro hno
    have hactive :
        (if !((latestCheckpoint c cs).next.getD []).isEmpty then
          (match env.runsForActive with
           | .ok runs => runs.find? isActiveRun
           | .error _ => none)
         else none) = none := by
      rcases hno with hidle | herr | hnone
      · simp [hidle]
      · simp [herr]
      · rcases henv : env.runsForActive with u | runs
        · simp
        · simp [hnone runs henv]
    constructor
    · simp only [hydrate, hh, ht, Bool.false_eq_true, if_false, hactive]
    · simp only [hydrate, hh, ht, Bool.false_eq_true, if_false, hactive]

/-- Environment with a busy latest checkpoint and one running run. -/
def env5 : HydrationEnv :=
  { baseEnv with
      history := .ok (some [cpInterrupted])
      runsForActive :=
        .ok [{ run_id := "run-A", status := .running, thread_id := some "t" }]
      chunks := [.messageContent "m1" "hello"] }

/-- C5 witness: the running run `run-A` is joined and RUN_FINISHED trails the
translated chunk events. -/
theorem claim5_active_run_gating_witness :
    (hydrate env5 { manuallyEmittedState := none } "t" 100).joinedRun
        = some ({ run_id := "run-A", status := .running
                  thread_id := some "t" } : HistoryRun).run_id ∧
    (hydrate env5 { manuallyEmittedState := none } "t" 100).events =
      snapshotPhaseEvents (latestCheckpoint cpInterrupted [])
        (transformMessages (applyHistoryLimit 100
          (collectMessages [cpInterrupted]))) "t" (resolvedRunId env5)
      ++ (runTranslator "t" ⟨[], [], none, "run-A"⟩ env5.chunks).2
      ++ (match env5.finalState with
          | .ok ts =>
            hydrationInterruptEvent ts "t"
              (runTranslator "t" ⟨[], [], none, "run-A"⟩ env5.chunks).1.runId
          | .error _ => [])
      ++ [.runFinished "t"
            (runTranslator "t" ⟨[], [], none, "run-A"⟩ env5.chunks).1.runId] :=
  (claim5_active_run_gating env5 { manuallyEmittedState := none } "t" 100
      cpInterrupted [] rfl rfl).1
    [{ run_id := "run-A", status := .running, thread_id := some "t" }]
    { run_id := "run-A", status := .running, thread_id := some "t" }
    (by decide) rfl (by decide) rfl

/-- Every hydrate outcome completes the subscriber. -/
theorem hydrate_completed (env : HydrationEnv) (rs : ActiveRunState)
    (threadId : String) (historyLimit : Int) :
    (hydrate env rs threadId historyLimit).completed = true := by
  rcases henv : env.history with u | o
  · simp [hydrate, henv]
  rcases o with _ | l
  · simp [hydrate, henv]
  rcases l with _ | ⟨c, cs⟩
  · simp [hydrate, henv]
  by_cases htt : env.transformThrows = true
  · simp [hydrate, henv, htt]
  · simp only [hydrate, henv]
    rw [if_neg htt]
    split <;> rfl

/-- Every hydrate outcome opens with a RUN_STARTED event. -/
theorem hydrate_head_runStarted (env : HydrationEnv) (rs : ActiveRunState)
    (threadId : String) (historyLimit : Int) :
    ∃ rid, (hydrate env rs threadId historyLimit).events.head?
      = some (.runStarted threadId rid) := by
  rcases henv : env.history with u | o
  · exact ⟨env.errorFallbackRunId, by simp [hydrate, henv, fallbackEvents]⟩
  rcases o with _ | l
  · exact ⟨env.emptyFallbackRunId, by simp [hydrate, henv, fallbackEvents]⟩
  rcases l with _ | ⟨c, cs⟩
  · exact ⟨env.emptyFallbackRunId, by simp [hydrate, henv, fallbackEvents]⟩
  by_cases htt : env.transformThrows = true
  · exact ⟨env.errorFallbackRunId, by simp [hydrate, henv, htt, fallbackEvents]⟩
  · refine ⟨resolvedRunId env, ?_⟩
    simp only [hydrate, henv]
    rw [if_neg htt]
    split <;> simp [snapshotPhaseEvents]

/-- Every hydrate outcome closes with a RUN_FINISHED event. -/
theorem hydrate_last_runFinished (env : HydrationEnv) (rs : ActiveRunState)
    (threadId : String) (historyLimit : Int) :
    ∃ rid, (hydrate env rs threadId historyLimit).events.getLast?
      = some (.runFinished threadId rid) := by
  rcases henv : env.history with u | o
  · exact ⟨env.errorFallbackRunId, by simp [hydrate, henv, fallbackEvents]⟩
  rcases o with _ | l
  · exact ⟨env.emptyFallbackRunId, by simp [hydrate, henv, fallbackEvents]⟩
  rcases l with _ | ⟨c, cs⟩
  · exact ⟨env.emptyFallbackRunId, by simp [hydrate, henv, fallbackEvents]⟩
  by_cases htt : env.transformThrows = true
  · exact ⟨env.errorFallbackRunId, by simp [hydrate, henv, htt, fallbackEvents]⟩
  · simp only [hydrate, henv]
    rw [if_neg htt]
    split
    · rename_i r heq
      by_cases hjse : env.joinStreamErr = true
      · exact ⟨r.run_id,
          by simp [joinAndProcessStream, hjse, List.getLast?_append]⟩
      · refine ⟨(runTranslator threadId
            ⟨[], [], rs.manuallyEmittedState, r.run_id⟩ env.chunks).1.runId, ?_⟩
        simp [joinAndProcessStream, hjse, List.getLast?_append]
    · exact ⟨resolvedRunId env, by simp [List.getLast?_append]⟩

/-- C7: an unhandled exception reaching the outer catch of `hydrate` (the
history fetch failing, or — not only fetch failure — an exception thrown
while building, here injected at the transform step) yields exactly the
RUN_STARTED / empty MESSAGES_SNAPSHOT / RUN_FINISHED fallback; and for every
input whatsoever, `hydrate` completes and its event sequence is a well-formed
bracket: it opens with RUN_STARTED and closes with RUN_FINISHED. -/
theorem claim7_fallback_and_bracket (env : HydrationEnv) (rs : ActiveRunState)
    (threadId : String) (historyLimit : Int) :
    ((env.history = .error ()
        ∨ (env.transformThrows = true
            ∧ ∃ c cs, env.history = .ok (some (c :: cs)))) →
      (hydrate env rs threadId historyLimit).events
        = fallbackEvents threadId env.errorFallbackRunId) ∧
    (hydrate env rs threadId historyLimit).completed = true ∧
    (∃ rid, (hydrate env rs threadId historyLimit).events.head?
        = some (.runStarted threadId rid)) ∧
    (∃ rid, (hydrate env rs threadId historyLimit).events.getLast?
        = some (.runFinished threadId rid)) := by
  refine ⟨?_, hydrate_completed env rs threadId historyLimit,
    hydrate_head_runStarted env rs threadId historyLimit,
    hydrate_last_runFinished env rs threadId historyLimit⟩
  rintro (herr | ⟨htt, c, cs, hcons⟩)
  · simp [hydrate, herr]
  · simp [hydrate, hcons, htt]

/-- C7 witness: a failed history fetch produces the fallback bracket, and the
bracket well-formedness holds on that concrete input. -/
theorem claim7_fallback_and_bracket_witness :
    ((hydrate { baseEnv with history := .error () }
        { manuallyEmittedState := none } "t" 100).events
      = fallbackEvents "t"
          ({ baseEnv with history := .error () } : HydrationEnv).errorFallbackRunId) ∧
    (hydrate { baseEnv with history := .error () }
        { manuallyEmittedState := none } "t" 100).completed = true ∧
    (∃ rid, (hydrate { baseEnv with history := .error () }
        { manuallyEmittedState := none } "t" 100).events.head?
        = some (.runStarted "t" rid)) ∧
    (∃ rid, (hydrate { baseEnv with history := .error () }
        { manuallyEmittedState := none } "t" 100).events.getLast?
        = some (.runFinished "t" rid)) :=
  have h := claim7_fallback_and_bracket { baseEnv with history := .error () }
    { manuallyEmittedState := none } "t" 100
  ⟨h.1 (Or.inl rfl), h.2.1, h.2.2.1, h.2.2.2⟩

/-! ## Translator start-synthesis bookkeeping -/

/-- Recognizer for a message-start event of the given message id. -/
def isMsgStartFor (M : String) : BaseEvent → Bool
  | .textMessageStart m _ _ => m == M
  | _ => false

/-- Number of message-start events for id `M`. -/
def countMsgStarts (M : String) (evs : List BaseEvent) : Nat :=
  evs.countP (isMsgStartFor M)

/-- Recognizer for a tool-call-start event of the given tool-call id. -/
def isToolStartFor (T : String) : BaseEvent → Bool
  | .toolCallStart t _ _ => t == T
  | _ => false

/-- Number of tool-call-start events for id `T`. -/
def countToolStarts (T : String) (evs : List BaseEvent) : Nat :=
  evs.countP (isToolStartFor T)

theorem countMsgStarts_le (tid M : String) (cs : List StreamChunk) :
    ∀ st : TranslatorState,
      countMsgStarts M (runTranslator tid st cs).2
        + (if M ∈ st.startedMessages then 1 else 0) ≤ 1 := by
  induction cs with
  | nil =>
    intro st
    by_cases h : M ∈ st.startedMessages <;>
      simp [runTranslator, countMsgStarts, h]
  | cons c cs ih =>
    intro st
    have hsplit : (runTranslator tid st (c :: cs)).2
        = (processStreamChunk tid st c).2
          ++ (runTranslator tid (processStreamChunk tid st c).1 cs).2 := rfl
    rw [hsplit]
    unfold countMsgStarts
    rw [List.countP_append]
    cases c with
    | messageContent m d =>
      by_cases hm : m ∈ st.startedMessages
      · have hih := ih st
        unfold countMsgStarts at hih
        by_cases hM : M ∈ st.startedMessages <;>
          simp_all [processStreamChunk, hm, List.countP_cons, isMsgStartFor]
      · by_cases hMm : M = m
        · subst hMm
          have hih := ih { st with startedMessages := M :: st.startedMessages }
          unfold countMsgStarts at hih
          simp_all [processStreamChunk, hm, List.countP_cons, isMsgStartFor]
        · have hih := ih { st with startedMessages := m :: st.startedMessages }
          unfold countMsgStarts at hih
          by_cases hM : M ∈ st.startedMessages <;>
            simp_all [processStreamChunk, hm, List.countP_cons, isMsgStartFor,
              Ne.symm hMm]
    | messageEnd m =>
      by_cases hm : m ∈ st.startedMessages
      · have hih := ih st
        unfold countMsgStarts at hih
        by_cases hM : M ∈ st.startedMessages <;>
          simp_all [processStreamChunk, hm, List.countP_cons, isMsgStartFor]
      · by_cases hMm : M = m
        · subst hMm
          have hih := ih { st with startedMessages := M :: st.startedMessages }
          unfold countMsgStarts at hih
          simp_all [processStreamChunk, hm, List.countP_cons, isMsgStartFor]
        · have hih := ih { st with startedMessages := m :: st.startedMessages }
          unfold countMsgStarts at hih
          by_cases hM : M ∈ st.startedMessages <;>
            simp_all [processStreamChunk, hm, List.countP_cons, isMsgStartFor,
              Ne.symm hMm]
    | toolCallDelta t d =>
      by_cases htc : t ∈ st.startedToolCalls
      · have hih := ih st
        unfold countMsgStarts at hih
        by_cases hM : M ∈ st.startedMessages <;>
          simp_all [processStreamChunk, htc, List.countP_cons, isMsgStartFor]
      · have hih := ih { st with startedToolCalls := t :: st.startedToolCalls }
        unfold countMsgStarts at hih
        by_cases hM : M ∈ st.startedMessages <;>
          simp_all [processStreamChunk, htc, List.countP_cons, isMsgStartFor]
    | stateValues p =>
      by_cases hp : st.manuallyEmittedState = some p
      · have hih := ih st
        unfold countMsgStarts at hih
        by_cases hM : M ∈ st.startedMessages <;>
          simp_all [processStreamChunk, hp, List.countP_cons, isMsgStartFor]
      · have hih := ih st
        unfold countMsgStarts at hih
        by_cases hM : M ∈ st.startedMessages <;>
          simp_all [processStreamChunk, hp, List.countP_cons, isMsgStartFor]
    | predictedState p =>
      have hih := ih { st with manuallyEmittedState := some p }
      unfold countMsgStarts at hih
      by_cases hM : M ∈ st.startedMessages <;>
        simp_all [processStreamChunk, List.countP_cons, isMsgStartFor]
    | newRun r =>
      have hih := ih { st with runId := r }
      unfold countMsgStarts at hih
      by_cases hM : M ∈ st.startedMessages <;>
        simp_all [processStreamChunk, List.countP_cons, isMsgStartFor]
    | unknown =>
      have hih := ih st
      unfold countMsgStarts at hih
      by_cases hM : M ∈ st.startedMessages <;>
        simp_all [processStreamChunk, List.countP_cons, isMsgStartFor]

theorem countToolStarts_le (tid T : String) (cs : List StreamChunk) :
    ∀ st : TranslatorState,
      countToolStarts T (runTranslator tid st cs).2
        + (if T ∈ st.startedToolCalls then 1 else 0) ≤ 1 := by
  induction cs with
  | nil =>
    intro st
    by_cases h : T ∈ st.startedToolCalls <;>
      simp [runTranslator, countToolStarts, h]
  | cons c cs ih =>
    intro st
    have hsplit : (runTranslator tid st (c :: cs)).2
        = (processStreamChunk tid st c).2
          ++ (runTranslator tid (processStreamChunk tid st c).1 cs).2 := rfl
    rw [hsplit]
    unfold countToolStarts
    rw [List.countP_append]
    cases c with
    | messageContent m d =>
      by_cases hm : m ∈ st.startedMessages
      · have hih := ih st
        unfold countToolStarts at hih
        by_cases hT : T ∈ st.startedToolCalls <;>
          simp_all [processStreamChunk, hm, List.countP_cons, isToolStartFor]
      · have hih := ih { st with startedMessages := m :: st.startedMessages }
        unfold countToolStarts at hih
        by_cases hT : T ∈ st.startedToolCalls <;>
          simp_all [processStreamChunk, hm, List.countP_cons, isToolStartFor]
    | messageEnd m =>
      by_cases hm : m ∈ st.startedMessages
      · have hih := ih st
        unfold countToolStarts at hih
        by_cases hT : T ∈ st.startedToolCalls <;>
          simp_all [processStreamChunk, hm, List.countP_cons, isToolStartFor]
      · have hih := ih { st with startedMessages := m :: st.startedMessages }
        unfold countToolStarts at hih
        by_cases hT : T ∈ st.startedToolCalls <;>
          simp_all [processStreamChunk, hm, List.countP_cons, isToolStartFor]
    | toolCallDelta t d =>
      by_cases htc : t ∈ st.startedToolCalls
      · have hih := ih st
        unfold countToolStarts at hih
        by_cases hT : T ∈ st.startedToolCalls <;>
          simp_all [processStreamChunk, htc, List.countP_cons, isToolStartFor]
      · by_cases hTt : T = t
        · subst hTt
          have hih := ih { st with startedToolCalls := T :: st.startedToolCalls }
          unfold countToolStarts at hih
          simp_all [processStreamChunk, htc, List.countP_cons, isToolStartFor]
        · have hih := ih { st with startedToolCalls := t :: st.startedToolCalls }
          unfold countToolStarts at hih
          by_cases hT : T ∈ st.startedToolCalls <;>
            simp_all [processStreamChunk, htc, List.countP_cons, isToolStartFor,
              Ne.symm hTt]
    | stateValues p =>
      by_cases hp : st.manuallyEmittedState = some p
      · have hih := ih st
        unfold countToolStarts at hih
        by_cases hT : T ∈ st.startedToolCalls <;>
          simp_all [processStreamChunk, hp, List.countP_cons, isToolStartFor]
      · have hih := ih st
        unfold countToolStarts at hih
        by_cases hT : T ∈ st.startedToolCalls <;>
          simp_all [processStreamChunk, hp, List.countP_cons, isToolStartFor]
    | predictedState p =>
      have hih := ih { st with manuallyEmittedState := some p }
      unfold countToolStarts at hih
      by_cases hT : T ∈ st.startedToolCalls <;>
        simp_all [processStreamChunk, List.countP_cons, isToolStartFor]
    | newRun r =>
      have hih := ih { st with runId := r }
      unfold countToolStarts at hih
      by_cases hT : T ∈ st.startedToolCalls <;>
        simp_all [processStreamChunk, List.countP_cons, isToolStartFor]
    | unknown =>
      have hih := ih st
      unfold countToolStarts at hih
      by_cases hT : T ∈ st.startedToolCalls <;>
        simp_all [processStreamChunk, List.countP_cons, isToolStartFor]

/-- C8: a translator that has not yet observed a start for message id `M`
(mid-stream join) synthesizes the missing start event — for a content chunk
and for an end chunk — immediately before the corresponding
content/end event, records `M` as started, and never emits a second start
for `M` over the remainder of the stream; the same pattern holds keyed on
tool-call id for tool-call chunks. -/
theorem claim8_midstream_start_synthesis (tid M d T dT : String)
    (cs csT : List StreamChunk) (st stT : TranslatorState)
    (hM : M ∉ st.startedMessages) (hT : T ∉ stT.startedToolCalls) :
    ((runTranslator tid st (.messageContent M d :: cs)).2 =
        .textMessageStart M tid st.runId
          :: .textMessageContent M d tid st.runId
          :: (runTranslator tid
                { st with startedMessages := M :: st.startedMessages } cs).2) ∧
    ((runTranslator tid st (.messageEnd M :: cs)).2 =
        .textMessageStart M tid st.runId
          :: .textMessageEnd M tid st.runId
          :: (runTranslator tid
                { st with startedMessages := M :: st.startedMessages } cs).2) ∧
    countMsgStarts M (runTranslator tid st (.messageContent M d :: cs)).2 ≤ 1 ∧
    ((runTranslator tid stT (.toolCallDelta T dT :: csT)).2 =
        .toolCallStart T tid stT.runId
          :: .toolCallArgs T dT tid stT.runId
          :: (runTranslator tid
                { stT with startedToolCalls := T :: stT.startedToolCalls }
                csT).2) ∧
    countToolStarts T (runTranslator tid stT (.toolCallDelta T dT :: csT)).2 ≤ 1 := by
  refine ⟨?_, ?_, ?_, ?_, ?_⟩
  · show ((processStreamChunk tid st (.messageContent M d)).2
        ++ (runTranslator tid (processStreamChunk tid st (.messageContent M d)).1 cs).2) = _
    simp [processStreamChunk, hM]
  · show ((processStreamChunk tid st (.messageEnd M)).2
        ++ (runTranslator tid (processStreamChunk tid st (.messageEnd M)).1 cs).2) = _
    simp [processStreamChunk, hM]
  · have h := countMsgStarts_le tid M (.messageContent M d :: cs) st
    simp only [if_neg hM] at h
    omega
  · show ((processStreamChunk tid stT (.toolCallDelta T dT)).2
        ++ (runTranslator tid (processStreamChunk tid stT (.toolCallDelta T dT)).1 csT).2) = _
    simp [processStreamChunk, hT]
  · have h := countToolStarts_le tid T (.toolCallDelta T dT :: csT) stT
    simp only [if_neg hT] at h
    omega

/-- C8 witness: a fresh translator joining mid-stream at a content chunk for
message `m1` followed by another content chunk for `m1`. -/
theorem claim8_midstream_start_synthesis_witness :
    ("m1" ∉ ([] : List String) ∧ "tc1" ∉ ([] : List String)) ∧
    (((runTranslator "t" ⟨[], [], none, "r"⟩
        (.messageContent "m1" "he" :: [.messageContent "m1" "llo"])).2 =
        .textMessageStart "m1" "t" "r"
          :: .textMessageContent "m1" "he" "t" "r"
          :: (runTranslator "t"
                ⟨["m1"], [], none, "r"⟩ [.messageContent "m1" "llo"]).2) ∧
     ((runTranslator "t" ⟨[], [], none, "r"⟩
        (.messageEnd "m1" :: [.messageContent "m1" "llo"])).2 =
        .textMessageStart "m1" "t" "r"
          :: .textMessageEnd "m1" "t" "r"
          :: (runTranslator "t"
                ⟨["m1"], [], none, "r"⟩ [.messageContent "m1" "llo"]).2) ∧
     countMsgStarts "m1" (runTranslator "t" ⟨[], [], none, "r"⟩
        (.messageContent "m1" "he" :: [.messageContent "m1" "llo"])).2 ≤ 1 ∧
     ((runTranslator "t" ⟨[], [], none, "r"⟩
        (.toolCallDelta "tc1" "\x7b" :: [])).2 =
        .toolCallStart "tc1" "t" "r"
          :: .toolCallArgs "tc1" "\x7b" "t" "r"
          :: (runTranslator "t" ⟨[], ["tc1"], none, "r"⟩ []).2) ∧
     countToolStarts "tc1" (runTranslator "t" ⟨[], [], none, "r"⟩
        (.toolCallDelta "tc1" "\x7b" :: [])).2 ≤ 1) :=
  ⟨⟨by decide, by decide⟩,
   claim8_midstream_start_synthesis "t" "m1" "he" "tc1" "\x7b"
     [.messageContent "m1" "llo"] [] ⟨[], [], none, "r"⟩ ⟨[], [], none, "r"⟩
     (by decide) (by decide)⟩

/-! ## C9: carried `manuallyEmittedState` -/

/-- A state payload the translator predicts/receives. -/
def statePayloadP : StateValues := { messages := none, extra := "plan:1" }

/-- A busy checkpoint without `values` (so the snapshot phase emits no
STATE_SNAPSHOT, isolating translator emissions). -/
def cpBusy : ThreadState :=
  { values := none, next := some ["step"], tasks := none }

/-- First connect: joins running run `run-A` on thread `t1`; the stream
manually emits `statePayloadP`. -/
def env9a : HydrationEnv :=
  { baseEnv with
      history := .ok (some [cpBusy])
      runsForActive :=
        .ok [{ run_id := "run-A", status := .running, thread_id := some "t1" }]
      chunks := [.predictedState statePayloadP] }

/-- Second connect on the same runner instance: a different thread `t2` and a
different run `run-B`, whose stream carries a values chunk equal to
`statePayloadP`. -/
def env9b : HydrationEnv :=
  { baseEnv with
      history := .ok (some [cpBusy])
      runsForActive :=
        .ok [{ run_id := "run-B", status := .running, thread_id := some "t2" }]
      chunks := [.stateValues statePayloadP] }

/-- C9 counterexample: the carried `manuallyEmittedState` is NOT scoped to
the run it was set in.  After a join of run `run-A` on thread `t1` stores
payload `P`, a join of the distinct run `run-B` on the distinct thread `t2`
(same runner instance, whose `activeRun` field is never reset) suppresses
the STATE_SNAPSHOT for an equal payload — zero snapshots — whereas the same
join from a fresh runner state emits exactly one. -/
theorem claim9_counterexample_leak_across_runs :
    (hydrate env9a { manuallyEmittedState := none } "t1" 100).activeRun
        = { manuallyEmittedState := some statePayloadP } ∧
    countStateSnapshots
      ((hydrate env9b
          (hydrate env9a { manuallyEmittedState := none } "t1" 100).activeRun
          "t2" 100).events) = 0 ∧
    countStateSnapshots
      ((hydrate env9b { manuallyEmittedState := none } "t2" 100).events) = 1 := by
  refine ⟨?_, ?_, ?_⟩ <;> rfl

/-- C9 (amended): `manuallyEmittedState` is carried from a completed stream
join into every subsequent join performed through the same runner instance —
in particular a re-join of the same logical run — and a values chunk whose
payload structurally equals the carried value is suppressed; but the carry
is keyed on the runner instance (the `activeRun` field is never reset), not
on the run's lifetime. -/
theorem claim9_carry_and_suppression (env : HydrationEnv) (rs : ActiveRunState)
    (threadId : String) (historyLimit : Int) (c : ThreadState)
    (cs : List ThreadState) (runs : List HistoryRun) (r : HistoryRun)
    (st : TranslatorState) (P : StateValues)
    (hh : env.history = .ok (some (c :: cs)))
    (ht : env.transformThrows = false)
    (hbusy : (latestCheckpoint c cs).next.getD [] ≠ [])
    (hruns : env.runsForActive = .ok runs)
    (hfind : runs.find? isActiveRun = some r)
    (hjse : env.joinStreamErr = false) :
    ((hydrate env rs threadId historyLimit).activeRun.manuallyEmittedState
        = (runTranslator threadId
            ⟨[], [], rs.manuallyEmittedState, r.run_id⟩ env.chunks).1.manuallyEmittedState) ∧
    (st.manuallyEmittedState = some P →
       processStreamChunk threadId st (.stateValues P) = (st, [])) := by
  constructor
  · have hb : ((latestCheckpoint c cs).next.getD []).isEmpty = false := by
      simpa [List.isEmpty_iff] using hbusy
    simp [hydrate, hh, ht, hb, hruns, hfind, joinAndProcessStream, hjse]
  · intro hP
    simp [processStreamChunk, hP]

/-- C9 amended-claim witness: concrete re-join of the same run `run-A` with
the carried payload, suppressing the duplicate values chunk. -/
theorem claim9_carry_and_suppression_witness :
    ((hydrate { env9a with chunks := [.stateValues statePayloadP] }
        { manuallyEmittedState := some statePayloadP } "t1" 100).activeRun.manuallyEmittedState
      = (runTranslator "t1" ⟨[], [], some statePayloadP, "run-A"⟩
          [.stateValues statePayloadP]).1.manuallyEmittedState) ∧
    (some statePayloadP = some statePayloadP →
       processStreamChunk "t1" ⟨[], [], some statePayloadP, "run-A"⟩
         (.stateValues statePayloadP)
         = (⟨[], [], some statePayloadP, "run-A"⟩, [])) :=
  claim9_carry_and_suppression
    { env9a with chunks := [.stateValues statePayloadP] }
    { manuallyEmittedState := some statePayloadP } "t1" 100
    cpBusy [] [{ run_id := "run-A", status := .running, thread_id := some "t1" }]
    { run_id := "run-A", status := .running, thread_id := some "t1" }
    ⟨[], [], some statePayloadP, "run-A"⟩ statePayloadP
    rfl rfl (by decide) rfl (by decide) rfl

/-! ## C10: non-positive configured limit -/

/-- C10: with `historyLimit ≤ 0` the emitted log is the whole deduplicated
log (no truncation) while the history fetch still requests the default limit
of 100; a positive configured limit is clamped to the backend maximum 1000
at construction time. -/
theorem claim10_nonpositive_limit (k : Int) (hk : k ≤ 0)
    (history : List ThreadState) (cfg : Int) (hcfg : 0 < cfg) :
    applyHistoryLimit k (collectMessages history) = collectMessages history ∧
    fetchLimit k = DEFAULT_HISTORY_LIMIT ∧
    fetchLimit k = 100 ∧
    constructedHistoryLimit (some cfg) = min cfg 1000 ∧
    constructedHistoryLimit (some cfg) ≤ MAX_HISTORY_LIMIT := by
  have hnk : ¬ k > 0 := by omega
  refine ⟨?_, ?_, ?_, ?_, ?_⟩
  · simp [applyHistoryLimit, hnk]
  · simp [fetchLimit, hnk]
  · simp [fetchLimit, hnk, DEFAULT_HISTORY_LIMIT]
  · simp [constructedHistoryLimit, MAX_HISTORY_LIMIT]
  · simp [constructedHistoryLimit]

/-- C10 witness: `historyLimit = 0` with a two-message log, and a configured
limit of 5000 clamped to 1000. -/
theorem claim10_nonpositive_limit_witness :
    (0 : Int) ≤ 0 ∧ (0 : Int) < 5000 ∧
    (applyHistoryLimit 0 (collectMessages [mkCheckpoint [mkMsg "a", mkMsg "b"]])
        = collectMessages [mkCheckpoint [mkMsg "a", mkMsg "b"]] ∧
     fetchLimit 0 = DEFAULT_HISTORY_LIMIT ∧
     fetchLimit 0 = 100 ∧
     constructedHistoryLimit (some 5000) = min 5000 1000 ∧
     constructedHistoryLimit (some 5000) ≤ MAX_HISTORY_LIMIT) :=
  ⟨by decide, by decide,
   claim10_nonpositive_limit 0 (by decide)
     [mkCheckpoint [mkMsg "a", mkMsg "b"]] 5000 (by decide)⟩

end CopilotHistory
